import Mathlib

/-!
Verification of the Forklift content script
(`web-ext-artifacts/forklift-1.0.0/content/content.js`).

The script's data is JSON-shaped JavaScript values.  We embed them as the
mutual family `JSVal` / `JSList` / `JSObj` (arrays and objects carry their
own spines so that all functions below are structurally recursive and
kernel-evaluable).  JavaScript numbers are embedded as rationals; their
`String(...)` rendering is modelled by exact decimal expansion, which agrees
with JavaScript on every decimally-representable value the script handles
(scores with at most one decimal digit).
-/

namespace Forklift

mutual

inductive JSVal where
  | str : String → JSVal
  | num : ℚ → JSVal
  | bool : Bool → JSVal
  | null : JSVal
  | undefined : JSVal
  | arr : JSList → JSVal
  | obj : JSObj → JSVal

inductive JSList where
  | nil : JSList
  | cons : JSVal → JSList → JSList

inductive JSObj where
  | nil : JSObj
  | cons : String → JSVal → JSObj → JSObj

end

/-- JavaScript truthiness: `undefined`, `null`, `false`, `0` and `""` are
falsy, everything else (objects and arrays included) is truthy. -/
def truthy : JSVal → Bool
  | .undefined => false
  | .null => false
  | .bool b => b
  | .num q => decide (q ≠ 0)
  | .str s => decide (s ≠ "")
  | .arr _ => true
  | .obj _ => true

/-- Property lookup on an object spine (JavaScript object keys are unique,
so first-match lookup is faithful). -/
def objLookup : JSObj → String → Option JSVal
  | .nil, _ => none
  | .cons k v rest, key => if k = key then some v else objLookup rest key

/-- JavaScript property access `v[k]`: `undefined` on non-objects and on
absent keys (the script only reads named keys from objects). -/
def jsGet (v : JSVal) (k : String) : JSVal :=
  match v with
  | .obj kvs =>
    match objLookup kvs k with
    | some x => x
    | none => .undefined
  | _ => .undefined

/-- One step of a short-circuit `&&`-guarded property chain:
`v && v[k]` evaluates to `v` when `v` is falsy and to `v[k]` otherwise. -/
def andGet (v : JSVal) (k : String) : JSVal :=
  if truthy v then jsGet v k else v

/-- ASCII lowercasing, the fragment of `String.prototype.toLowerCase`
exercised by the script's `"ad"` checks. -/
def lowerStr (s : String) : String := String.mk (s.data.map Char.toLower)

/-- JavaScript `String.prototype.includes`: `pat` occurs as a contiguous substring. -/
def containsSub (s pat : String) : Bool :=
  (List.range (s.data.length + 1)).any fun i => pat.data.isPrefixOf (s.data.drop i)

/-! ## Escaping (source: `escapeText`, `escapeAttr`)

`escapeText` is three sequential global single-character replacements
(`&` first, then `<`, then `>`); `escapeAttr` additionally replaces `"`. -/

/-- Global single-character replacement `String.prototype.replace(/c/g, r)`,
at the character-list level. -/
def replaceCharL (c : Char) (r : List Char) : List Char → List Char
  | [] => []
  | ch :: t => (if ch = c then r else [ch]) ++ replaceCharL c r t

/-- Source `escapeText`, at the character-list level: replace `&`, then `<`,
then `>`. -/
def escapeTextL (l : List Char) : List Char :=
  replaceCharL '>' "&gt;".data (replaceCharL '<' "&lt;".data (replaceCharL '&' "&amp;".data l))

/-- Source `escapeText`. -/
def escapeText (s : String) : String := String.mk (escapeTextL s.data)

/-- Source `escapeAttr`, at the character-list level: `escapeText` followed
by replacing `"`. -/
def escapeAttrL (l : List Char) : List Char :=
  replaceCharL '"' "&quot;".data (escapeTextL l)

/-- Source `escapeAttr`. -/
def escapeAttr (s : String) : String := String.mk (escapeAttrL s.data)

/-- The spec's description of text escaping: a single simultaneous pass
mapping `&`, `<`, `>` to their entities and leaving every other character
unchanged.  Compared against the source's sequential `escapeText`. -/
def escapeTextSpecL : List Char → List Char
  | [] => []
  | ch :: t =>
    (if ch = '&' then "&amp;".data
     else if ch = '<' then "&lt;".data
     else if ch = '>' then "&gt;".data
     else [ch]) ++ escapeTextSpecL t

/-- The spec's description of attribute escaping: text escaping plus
additionally mapping `"` to `&quot;`, as a single simultaneous pass. -/
def escapeAttrSpecL : List Char → List Char
  | [] => []
  | ch :: t =>
    (if ch = '&' then "&amp;".data
     else if ch = '<' then "&lt;".data
     else if ch = '>' then "&gt;".data
     else if ch = '"' then "&quot;".data
     else [ch]) ++ escapeAttrSpecL t

/-! ## Score parsing (source: `parseScoreText`) -/

/-- JavaScript `\s` (the whitespace characters that occur in practice:
space, tab, line feed, carriage return, vertical tab, form feed). -/
def isWsChar (c : Char) : Bool :=
  c = ' ' || c = '\t' || c = '\n' || c = '\r' || c = Char.ofNat 11 || c = Char.ofNat 12

/-- Whitespace collapsing `text.replace(/\s+/g, ' ')`: every maximal whitespace run becomes a
single space. -/
def collapseWs : List Char → List Char
  | [] => []
  | c :: rest =>
    let r := collapseWs rest
    if isWsChar c then
      match r with
      | ' ' :: _ => r
      | _ => ' ' :: r
    else c :: r

/-- JavaScript `String.prototype.trim` on a character list. -/
def trimWs (l : List Char) : List Char :=
  ((l.dropWhile isWsChar).reverse.dropWhile isWsChar).reverse

def isDigitCh (c : Char) : Bool := '0' ≤ c && c ≤ '9'

/-- JavaScript `\w` (word character), used for `\b` word boundaries. -/
def isWordCh (c : Char) : Bool :=
  isDigitCh c || ('a' ≤ c && c ≤ 'z') || ('A' ≤ c && c ≤ 'Z') || c = '_'

/-- Word boundary `\b` immediately after a match that ends in a digit: true at end of
input or before a non-word character. -/
def boundaryAfter : List Char → Bool
  | [] => true
  | c :: _ => !isWordCh c

/-- Alternative `10.0` of the score pattern, tried at the current position. -/
def alt100 : List Char → Option (List Char)
  | '1' :: '0' :: '.' :: '0' :: rest =>
    if boundaryAfter rest then some ['1', '0', '.', '0'] else none
  | _ => none

/-- Alternative `10` of the score pattern, tried at the current position. -/
def alt10 : List Char → Option (List Char)
  | '1' :: '0' :: rest => if boundaryAfter rest then some ['1', '0'] else none
  | _ => none

/-- Alternative `\d\.\d` of the score pattern, tried at the current position. -/
def altDxD : List Char → Option (List Char)
  | a :: '.' :: b :: rest =>
    if isDigitCh a && isDigitCh b && boundaryAfter rest then some [a, '.', b] else none
  | _ => none

/-- The ordered alternation `(10\.0|10|\d\.\d)` with its trailing `\b`,
tried at the current position (regex alternation is first-match, left to
right). -/
def tryAlts (l : List Char) : Option (List Char) :=
  (alt100 l).orElse fun _ => (alt10 l).orElse fun _ => altDxD l

/-- Bounded-token search `cleaned.match(/\b(10\.0|10|\d\.\d)\b/)`: scan positions left to right;
at each position whose left side is a word boundary, try the alternatives in
order.  `prev` is the character before the current position. -/
def scanTok : Option Char → List Char → Option (List Char)
  | _, [] => none
  | prev, c :: rest =>
    let bOk : Bool :=
      match prev with
      | none => true
      | some p => !isWordCh p
    match (if bOk then tryAlts (c :: rest) else none) with
    | some t => some t
    | none => scanTok (some c) rest

/-- Exact match `cleaned.match(/^(10\.0|10|\d\.\d)$/)`: the whole cleaned string is one
token of the alternation. -/
def exactTok (l : List Char) : Option (List Char) :=
  if l = ['1', '0', '.', '0'] then some l
  else if l = ['1', '0'] then some l
  else
    match l with
    | [a, '.', b] => if isDigitCh a && isDigitCh b then some l else none
    | _ => none

/-- JavaScript `parseFloat` of a matched token (tokens are `10.0`, `10`, or `d.d`;
`d.d` has the exact value `(10·d₁ + d₂)/10`). -/
def tokVal : List Char → ℚ
  | ['1', '0', '.', '0'] => 10
  | ['1', '0'] => 10
  | [a, '.', b] => mkRat (10 * (a.toNat - 48) + (b.toNat - 48) : ℕ) 10
  | _ => 0

/-- Source `parseScoreText`: collapse whitespace and trim, try the exact
whole-string match first, then the bounded-token search; keep the parsed
value only if it lies in `[0, 10]`. -/
def parseScoreText (text : String) : Option ℚ :=
  match (exactTok (trimWs (collapseWs text.data))).orElse
      fun _ => scanTok none (trimWs (collapseWs text.data)) with
  | none => none
  | some t => if 0 ≤ tokVal t ∧ tokVal t ≤ 10 then some (tokVal t) else none

/-! ## JavaScript `String(...)` coercion

Attribute values and the score are rendered with `String(v)`.  Numbers are
printed by exact terminating decimal expansion (fuel-bounded; every number
the script handles has at most one fractional digit). -/

/-- Decimal expansion of the fraction `rem / den` (`rem < den`), stopping
when the remainder vanishes; `fuel` bounds the number of digits. -/
def fracDigits : ℕ → ℕ → ℕ → List Char
  | 0, _, _ => []
  | _, 0, _ => []
  | fuel + 1, rem + 1, den =>
    let r10 := (rem + 1) * 10
    Char.ofNat (48 + r10 / den) :: fracDigits fuel (r10 % den) den

/-- JavaScript number-to-string for a rational with terminating decimal
expansion (e.g. `7.8 ↦ "7.8"`, `10 ↦ "10"`, `0 ↦ "0"`). -/
def numToString (q : ℚ) : String :=
  let sign := if q < 0 then "-" else ""
  let n := q.num.natAbs
  let d := q.den
  let frac := fracDigits 30 (n % d) d
  match frac with
  | [] => sign ++ toString (n / d)
  | _ => sign ++ toString (n / d) ++ "." ++ String.mk frac

mutual

/-- JavaScript `String(v)`. -/
def jsString : JSVal → String
  | .str s => s
  | .num q => numToString q
  | .bool b => cond b "true" "false"
  | .null => "null"
  | .undefined => "undefined"
  | .arr l => jsArrJoin l
  | .obj _ => "[object Object]"

/-- Array joining `Array.prototype.join(",")` as used by `String(array)`; `null` and
`undefined` elements print as empty. -/
def jsArrJoin : JSList → String
  | .nil => ""
  | .cons v .nil =>
    (match v with
     | .null => ""
     | .undefined => ""
     | w => jsString w)
  | .cons v rest =>
    (match v with
     | .null => ""
     | .undefined => ""
     | w => jsString w) ++ "," ++ jsArrJoin rest

end

/-! ## HTML reconstruction (source: `isAdNode`, `bodyArrayToHtml`) -/

/-- Source `isAdNode`: a node is an ad when its tag contains `"ad"`
(case-insensitively), or its attribute object has a `position` key whose
string value contains `"ad"` (case-insensitively). -/
def isAdNode (tag : JSVal) (attrs : JSVal) : Bool :=
  match tag with
  | .str t =>
    if containsSub (lowerStr t) "ad" then true
    else
      match attrs with
      | .obj kvs =>
        match objLookup kvs "position" with
        | some (.str p) => containsSub (lowerStr p) "ad"
        | _ => false
      | _ => false
  | _ => false

/-- One attribute entry `k="escapeAttr(String(v))"` per key, skipping the
bookkeeping key `isExternal` (source: the `.filter`/`.map` over
`Object.entries(attrs)`). -/
def attrEntries : JSObj → List String
  | .nil => []
  | .cons k v rest =>
    (if k = "isExternal" then [] else [k ++ "=\"" ++ escapeAttr (jsString v) ++ "\""]) ++
      attrEntries rest

/-- The `<tag …>` … `</tag>` assembly of `bodyArrayToHtml` for a node whose
tag, attribute object and already-rendered children are given: empty for ad
nodes, otherwise the open tag (with a space-joined attribute string when
non-empty), the child HTML, and the close tag. -/
def elementHtml (tag : String) (attrs : JSObj) (childHtml : String) : String :=
  if isAdNode (.str tag) (.obj attrs) then ""
  else
    let attrStr := String.intercalate " " (attrEntries attrs)
    (if attrStr = "" then "<" ++ tag ++ ">" else "<" ++ tag ++ " " ++ attrStr ++ ">") ++
      childHtml ++ "</" ++ tag ++ ">"

mutual

/-- Source `bodyArrayToHtml`: strings render as escaped text; a non-empty
array whose head is a string renders as an element, consuming a second
entry that is a plain object as the attribute set; everything else
(numbers, booleans, `null`, `undefined`, objects, empty arrays, arrays with
a non-string head) renders as the empty string. -/
def bodyArrayToHtml : JSVal → String
  | .str s => escapeText s
  | .arr (.cons (.str tag) (.cons (.obj a) cs)) => elementHtml tag a (childrenHtml cs)
  | .arr (.cons (.str tag) cs) => elementHtml tag .nil (childrenHtml cs)
  | _ => ""

/-- Concatenated rendering `children.map(bodyArrayToHtml).join('')`. -/
def childrenHtml : JSList → String
  | .nil => ""
  | .cons c cs => bodyArrayToHtml c ++ childrenHtml cs

end

/-! ## DOM model

The patcher touches two anchors: the body container (selector
`[data-testid="BodyWrapper"]`), whose children are wholly replaced by the
nodes parsed from the reconstructed markup — modelled at the markup-string
level as the container's content — and the score box (selector
`[class*="ScoreBoxWrapper"]`), in which the code descends through
`lastElementChild` to the innermost element and sets its `textContent` and
`style.filter`.  Elements are modelled as text + filter + element
children.  An absent anchor is `none`. -/

mutual

inductive Elem where
  | mk : String → String → ElemList → Elem

inductive ElemList where
  | nil : ElemList
  | cons : Elem → ElemList → ElemList

end

def Elem.text : Elem → String
  | .mk t _ _ => t

def Elem.filter : Elem → String
  | .mk _ f _ => f

def Elem.children : Elem → ElemList
  | .mk _ _ cs => cs

/-- The innermost node of the `while (el.lastElementChild) el = el.lastElementChild`
descent, relative to a child list: the deepest-last element under the last
entry (`none` when the list is empty). -/
def innermostOfLast : ElemList → Option Elem
  | .nil => none
  | .cons c .nil =>
    some
      (match c with
       | .mk t f cs =>
         match innermostOfLast cs with
         | none => .mk t f cs
         | some i => i)
  | .cons _ (.cons d ds) => innermostOfLast (.cons d ds)

/-- The element the score writer targets: the wrapper itself when it has no
element children, else the deepest-last descendant. -/
def innermostElem (e : Elem) : Elem :=
  match e with
  | .mk _ _ cs =>
    match innermostOfLast cs with
    | none => e
    | some i => i

/-- Rewrite the deepest-last element under the last entry of a child list,
setting its text and filter (the element's own children are cleared, as a
`textContent` assignment does). -/
def setInnermostOfLast (t f : String) : ElemList → ElemList
  | .nil => .nil
  | .cons c .nil =>
    .cons
      (match c with
       | .mk tx fl cs =>
         match cs with
         | .nil => .mk t f .nil
         | .cons d ds => .mk tx fl (setInnermostOfLast t f (.cons d ds)))
      .nil
  | .cons c (.cons d ds) => .cons c (setInnermostOfLast t f (.cons d ds))

/-- The score-restore mutation on the wrapper element: set the text and
filter of its innermost (deepest-last) element. -/
def setInnermost (t f : String) (e : Elem) : Elem :=
  match e with
  | .mk tx fl cs =>
    match cs with
    | .nil => .mk t f .nil
    | .cons d ds => .mk tx fl (setInnermostOfLast t f (.cons d ds))

/-- The page state the script mutates: content of the body container and
the score-box wrapper element, each `none` when the anchor is absent. -/
structure Dom where
  bodyWrapper : Option String
  scoreBox : Option Elem

/-- Source `updatePageWithScore`: no-op when `score == null` (loose
equality, i.e. `null` or `undefined`) or when the score-box anchor is
absent; otherwise write `String(score)` into the innermost element and set
its filter to `blur(0px)`. -/
def updatePageWithScore (score : JSVal) (dom : Dom) : Dom :=
  match score with
  | .null => dom
  | .undefined => dom
  | s =>
    match dom.scoreBox with
    | none => dom
    | some sb => { dom with scoreBox := some (setInnermost (jsString s) "blur(0px)" sb) }

/-- The guarded chain `data && data.review && data.review.body`. -/
def bodyOf (data : JSVal) : JSVal := andGet (andGet data "review") "body"

/-- The guarded chain
`data && data.review && data.review.headerProps &&
 data.review.headerProps.musicRating &&
 data.review.headerProps.musicRating.score`. -/
def scoreOf (data : JSVal) : JSVal :=
  andGet (andGet (andGet (andGet data "review") "headerProps") "musicRating") "score"

/-- The resolved branch of source `enhancePaywalledPage`: bail out (warning
only) when `review.body` is not an array; bail out (warning only, skipping
the score update as well) when the body container is absent; otherwise
replace the body container's content with the reconstructed markup — the
sanitize-or-parse insertion is modelled at the markup-string level — and
then run `updatePageWithScore` on the extracted score. -/
def enhanceWithData (data : JSVal) (dom : Dom) : Dom :=
  match bodyOf data with
  | .arr b =>
    match dom.bodyWrapper with
    | none => dom
    | some _ =>
      updatePageWithScore (scoreOf data)
        { dom with bodyWrapper := some (bodyArrayToHtml (.arr b)) }
  | _ => dom

/-- Source `enhancePaywalledPage` around the fetch outcome: a rejected
fetch only logs (`.catch`), leaving the page untouched. -/
def enhancePaywalledPage (fetched : Except String JSVal) (dom : Dom) : Dom :=
  match fetched with
  | .ok data => enhanceWithData data dom
  | .error _ => dom

/-! ## Remote fetch (source: `fetchReviewJson`)

The HTTP response is `none` on network failure, otherwise status flag,
status text and body text.  `JSON.parse` is the host's parser, passed in as
an oracle `parse` returning `none` on malformed input.  Every failure is a
rejected promise, embedded as `Except.error`. -/

structure Response where
  ok : Bool
  statusText : String
  bodyText : String

/-- Source `fetchReviewJson` applied to the response of the single request
it issues (no retry exists: one `fetch`, one `then`-chain): reject on
network failure, non-ok status, empty or `<`-opening trimmed body, or
parser failure; otherwise resolve with the parsed value. -/
def fetchReviewJson (parse : String → Option JSVal) (resp : Option Response) :
    Except String JSVal :=
  match resp with
  | none => Except.error "NetworkError when attempting to fetch resource."
  | some r =>
    if !r.ok then Except.error r.statusText
    else
      let trimmed := r.bodyText.trim
      if trimmed = "" || trimmed.startsWith "<" then
        Except.error "Server returned non-JSON response"
      else
        match parse trimmed with
        | some v => Except.ok v
        | none => Except.error "SyntaxError: JSON.parse"

/-! ## Paywall-drop watcher (source: the `MutationObserver` wiring)

A mutation record is modelled by its list of added nodes; a node by whether
it is an element (`nodeType === 1`) and whether `hasPaywallBar` holds of it
(it matches, or contains, the barrier-indicator selector).  The observer
callback receives batches of mutation records; `disconnect` stops delivery,
so the trace of a page load is computed from the batch sequence by
processing batches only until the first triggering one. -/

structure DNode where
  isElement : Bool
  containsBar : Bool

/-- Source `hasPaywallBar`: an element that matches or contains the
barrier-indicator selector. -/
def hasPaywallBar (n : DNode) : Bool := n.isElement && n.containsBar

/-- Whether one delivered batch makes the observer callback fire: some
added node passes the `nodeType === 1` guard and `hasPaywallBar`. -/
def batchFires (muts : List (List DNode)) : Bool :=
  muts.any fun m => m.any fun n => n.isElement && hasPaywallBar n

/-- Externally visible watcher actions. -/
inductive WAction where
  | disconnect : WAction
  | runCheck : WAction
deriving DecidableEq

/-- Trace of the observer over the delivered batch sequence: the first
firing batch produces `disconnect` (the source calls `observer.disconnect()`
first) followed by `runCheck`, and — the subscription now being canceled —
no later batch is delivered. -/
def observerTrace : List (List (List DNode)) → List WAction
  | [] => []
  | muts :: rest =>
    if batchFires muts then [WAction.disconnect, WAction.runCheck] else observerTrace rest

/-- Trace of a whole page load on an album-review page: if the barrier is
already present at install time the check runs immediately and no observer
is installed; otherwise the observer consumes the batch sequence. -/
def pageLoadTrace (barAtStart : Bool) (batches : List (List (List DNode))) : List WAction :=
  if barAtStart then [WAction.runCheck] else observerTrace batches

/-! ## Helper lemmas -/

/-- The attribute set a node with tail `rest` carries: the second positional
entry when it is a plain object, else empty. -/
def restAttrs : JSList → JSObj
  | .cons (.obj a) _ => a
  | _ => .nil

theorem bodyArrayToHtml_nonstr_head (hd : JSVal) (tl : JSList)
    (h : ∀ s, hd ≠ JSVal.str s) :
    bodyArrayToHtml (JSVal.arr (JSList.cons hd tl)) = "" := by
  cases hd with
  | str s => exact absurd rfl (h s)
  | num q => rfl
  | bool b => rfl
  | null => rfl
  | undefined => rfl
  | arr l => rfl
  | obj o => rfl

theorem elementHtml_ad (tag : String) (attrs : JSObj) (ch : String)
    (h : isAdNode (JSVal.str tag) (JSVal.obj attrs) = true) :
    elementHtml tag attrs ch = "" := by
  unfold elementHtml
  rw [h]
  rfl

theorem updatePageWithScore_bodyWrapper (s : JSVal) (d : Dom) :
    (updatePageWithScore s d).bodyWrapper = d.bodyWrapper := by
  unfold updatePageWithScore
  cases s <;> cases hd : d.scoreBox <;> rfl

theorem updatePageWithScore_noBox (s : JSVal) (d : Dom) (h : d.scoreBox = none) :
    updatePageWithScore s d = d := by
  unfold updatePageWithScore
  cases s <;> rw [h]

/-! ## Claim theorems -/

/-- C7: `bodyArrayToHtml` is a total function (it is a total Lean
definition over all of `JSVal`, terminating by structural recursion), and
every malformed shape — empty array, array whose first element is not a
string, and every non-string non-array leaf — renders as the empty
string. -/
theorem forklift_C7 :
    bodyArrayToHtml (JSVal.arr JSList.nil) = "" ∧
    (∀ hd tl, (∀ s, hd ≠ JSVal.str s) →
      bodyArrayToHtml (JSVal.arr (JSList.cons hd tl)) = "") ∧
    (∀ q, bodyArrayToHtml (JSVal.num q) = "") ∧
    (∀ b, bodyArrayToHtml (JSVal.bool b) = "") ∧
    bodyArrayToHtml JSVal.null = "" ∧
    bodyArrayToHtml JSVal.undefined = "" ∧
    (∀ kvs, bodyArrayToHtml (JSVal.obj kvs) = "") :=
  ⟨rfl, bodyArrayToHtml_nonstr_head, fun _ => rfl, fun _ => rfl, rfl, rfl, fun _ => rfl⟩

/-- C7 witness: the malformed node `[42]` (non-string head) renders empty. -/
theorem forklift_C7_witness :
    bodyArrayToHtml (JSVal.arr (JSList.cons (JSVal.num 42) JSList.nil)) = "" :=
  forklift_C7.2.1 (JSVal.num 42) JSList.nil (fun _ h => JSVal.noConfusion h)

/-- C4: a node whose string tag contains `"ad"` case-insensitively, or
whose attribute set has a `position` attribute with a string value
containing `"ad"` case-insensitively, renders as the empty string together
with its entire subtree. -/
theorem forklift_C4 :
    ∀ (tag : String) (rest : JSList),
      (containsSub (lowerStr tag) "ad" = true ∨
        ∃ p, objLookup (restAttrs rest) "position" = some (JSVal.str p) ∧
          containsSub (lowerStr p) "ad" = true) →
      bodyArrayToHtml (JSVal.arr (JSList.cons (JSVal.str tag) rest)) = "" := by
  intro tag rest h
  have had : isAdNode (JSVal.str tag) (JSVal.obj (restAttrs rest)) = true := by
    simp only [isAdNode]
    rcases h with h | ⟨p, hp, hc⟩
    · rw [h]
      rfl
    · rw [hp]
      dsimp only
      rw [hc]
      split <;> rfl
  cases rest with
  | nil => exact elementHtml_ad tag .nil _ had
  | cons hd tl =>
    cases hd with
    | obj a => exact elementHtml_ad tag a _ had
    | str s => exact elementHtml_ad tag .nil _ had
    | num q => exact elementHtml_ad tag .nil _ had
    | bool b => exact elementHtml_ad tag .nil _ had
    | null => exact elementHtml_ad tag .nil _ had
    | undefined => exact elementHtml_ad tag .nil _ had
    | arr l => exact elementHtml_ad tag .nil _ had

/-- C4 witness: the node `["AdSlot", "x"]` (tag contains `ad`) and the node
`["div", {position: "top-ad-rail"}, "x"]` both render empty. -/
theorem forklift_C4_witness :
    bodyArrayToHtml
      (JSVal.arr (JSList.cons (JSVal.str "AdSlot") (JSList.cons (JSVal.str "x") JSList.nil))) =
        "" ∧
    bodyArrayToHtml
      (JSVal.arr (JSList.cons (JSVal.str "div")
        (JSList.cons (JSVal.obj (JSObj.cons "position" (JSVal.str "top-ad-rail") JSObj.nil))
          (JSList.cons (JSVal.str "x") JSList.nil)))) = "" :=
  ⟨forklift_C4 "AdSlot" (JSList.cons (JSVal.str "x") JSList.nil) (Or.inl (by decide)),
   forklift_C4 "div"
     (JSList.cons (JSVal.obj (JSObj.cons "position" (JSVal.str "top-ad-rail") JSObj.nil))
       (JSList.cons (JSVal.str "x") JSList.nil))
     (Or.inr ⟨"top-ad-rail", rfl, by decide⟩)⟩

/-- C9: the pipeline hands the whole `review.body` array to the
reconstructor as a single node (with `body[0]` in tag position), and when
the array's first element is not a string the container is replaced with
empty content. -/
theorem forklift_C9 :
    (∀ data dom w b, bodyOf data = JSVal.arr b → dom.bodyWrapper = some w →
      (enhanceWithData data dom).bodyWrapper = some (bodyArrayToHtml (JSVal.arr b))) ∧
    (∀ data dom w hd tl, bodyOf data = JSVal.arr (JSList.cons hd tl) →
      (∀ s, hd ≠ JSVal.str s) → dom.bodyWrapper = some w →
      (enhanceWithData data dom).bodyWrapper = some "") := by
  have main : ∀ data dom w b, bodyOf data = JSVal.arr b → dom.bodyWrapper = some w →
      (enhanceWithData data dom).bodyWrapper = some (bodyArrayToHtml (JSVal.arr b)) := by
    intro data dom w b hb hw
    unfold enhanceWithData
    rw [hb, hw]
    rw [updatePageWithScore_bodyWrapper]
  refine ⟨main, ?_⟩
  intro data dom w hd tl hb hhd hw
  rw [main data dom w _ hb hw, bodyArrayToHtml_nonstr_head hd tl hhd]

/-- C9 witness: a payload whose `review.body` is `[["p", ["text"]]]` (first
element an array, not a string) leaves the present body container with
empty content. -/
theorem forklift_C9_witness :
    (enhanceWithData
      (JSVal.obj (JSObj.cons "review"
        (JSVal.obj (JSObj.cons "body"
          (JSVal.arr (JSList.cons
            (JSVal.arr (JSList.cons (JSVal.str "p")
              (JSList.cons (JSVal.arr (JSList.cons (JSVal.str "text") JSList.nil)) JSList.nil)))
            JSList.nil))
          JSObj.nil))
        JSObj.nil))
      (Dom.mk (some "<em>old</em>") none)).bodyWrapper = some "" :=
  forklift_C9.2 _ (Dom.mk (some "<em>old</em>") none) "<em>old</em>" _ JSList.nil rfl
    (fun _ h => JSVal.noConfusion h) rfl

/-! ## The innermost-element lemma -/

theorem setInnermostOfLast_cons (t f : String) (d : Elem) (ds : ElemList) :
    ∃ a b, setInnermostOfLast t f (ElemList.cons d ds) = ElemList.cons a b := by
  cases ds with
  | nil =>
    cases d with
    | mk dt dfl dcs =>
      cases dcs with
      | nil => exact ⟨_, _, rfl⟩
      | cons e es => exact ⟨_, _, rfl⟩
  | cons e es => exact ⟨_, _, rfl⟩

theorem setInnermostOfLast_spec (t f : String) :
    ∀ (l : ElemList), l ≠ ElemList.nil →
      ∃ r, innermostOfLast (setInnermostOfLast t f l) = some r ∧
        r.text = t ∧ r.filter = f
  | .nil, h => absurd rfl h
  | .cons (.mk tx fl .nil) .nil, _ =>
    ⟨.mk t f .nil, rfl, rfl, rfl⟩
  | .cons (.mk tx fl (.cons d ds)) .nil, _ => by
    obtain ⟨r, hr, hrt, hrf⟩ :=
      setInnermostOfLast_spec t f (ElemList.cons d ds) (fun h => ElemList.noConfusion h)
    refine ⟨r, ?_, hrt, hrf⟩
    show innermostOfLast
        (ElemList.cons (Elem.mk tx fl (setInnermostOfLast t f (ElemList.cons d ds)))
          ElemList.nil) = some r
    obtain ⟨a, b, hab⟩ := setInnermostOfLast_cons t f d ds
    rw [hab] at hr ⊢
    have hstep :
        innermostOfLast (ElemList.cons (Elem.mk tx fl (ElemList.cons a b)) ElemList.nil) =
          some (match innermostOfLast (ElemList.cons a b) with
                | none => Elem.mk tx fl (ElemList.cons a b)
                | some i => i) := rfl
    rw [hstep, hr]
  | .cons c (.cons d ds), _ => by
    obtain ⟨r, hr, hrt, hrf⟩ :=
      setInnermostOfLast_spec t f (ElemList.cons d ds) (fun h => ElemList.noConfusion h)
    refine ⟨r, ?_, hrt, hrf⟩
    show innermostOfLast
        (ElemList.cons c (setInnermostOfLast t f (ElemList.cons d ds))) = some r
    obtain ⟨a, b, hab⟩ := setInnermostOfLast_cons t f d ds
    rw [hab] at hr ⊢
    exact hr

theorem innermost_setInnermost (t f : String) (e : Elem) :
    (innermostElem (setInnermost t f e)).text = t ∧
      (innermostElem (setInnermost t f e)).filter = f := by
  cases e with
  | mk tx fl cs =>
    cases cs with
    | nil => exact ⟨rfl, rfl⟩
    | cons d ds =>
      obtain ⟨r, hr, hrt, hrf⟩ :=
        setInnermostOfLast_spec t f (ElemList.cons d ds) (fun h => ElemList.noConfusion h)
      have hstep :
          innermostElem (Elem.mk tx fl (setInnermostOfLast t f (ElemList.cons d ds))) =
            match innermostOfLast (setInnermostOfLast t f (ElemList.cons d ds)) with
            | none => Elem.mk tx fl (setInnermostOfLast t f (ElemList.cons d ds))
            | some i => i := rfl
      show (innermostElem (Elem.mk tx fl (setInnermostOfLast t f (ElemList.cons d ds)))).text = t ∧
        (innermostElem (Elem.mk tx fl (setInnermostOfLast t f (ElemList.cons d ds)))).filter = f
      rw [hstep, hr]
      exact ⟨hrt, hrf⟩

/-! ## Concrete fixtures -/

/-- The end-to-end scenario payload
`{review: {body: [["p", ["text"]]], headerProps: {musicRating: {score: 7.8}}}}`. -/
def payloadEndToEnd : JSVal :=
  JSVal.obj (JSObj.cons "review"
    (JSVal.obj (JSObj.cons "body"
      (JSVal.arr (JSList.cons
        (JSVal.arr (JSList.cons (JSVal.str "p")
          (JSList.cons (JSVal.arr (JSList.cons (JSVal.str "text") JSList.nil)) JSList.nil)))
        JSList.nil))
      (JSObj.cons "headerProps"
        (JSVal.obj (JSObj.cons "musicRating"
          (JSVal.obj (JSObj.cons "score" (JSVal.num (mkRat 78 10)) JSObj.nil))
          JSObj.nil))
        JSObj.nil)))
    JSObj.nil)

/-- A page in the end-to-end scenario: body container showing teaser
markup, score box wrapping one child element that displays `0.0` blurred. -/
def domEndToEnd : Dom :=
  Dom.mk (some "<em>teaser</em>")
    (some (Elem.mk "" ""
      (ElemList.cons (Elem.mk "0.0" "blur(6px)" ElemList.nil) ElemList.nil)))

/-- A well-formed payload
`{review: {body: ["p", "text"], headerProps: {musicRating: {score: 7.8}}}}`
whose body is a single node with string tag `p`. -/
def payloadWellFormed : JSVal :=
  JSVal.obj (JSObj.cons "review"
    (JSVal.obj (JSObj.cons "body"
      (JSVal.arr (JSList.cons (JSVal.str "p") (JSList.cons (JSVal.str "text") JSList.nil)))
      (JSObj.cons "headerProps"
        (JSVal.obj (JSObj.cons "musicRating"
          (JSVal.obj (JSObj.cons "score" (JSVal.num (mkRat 78 10)) JSObj.nil))
          JSObj.nil))
        JSObj.nil)))
    JSObj.nil)

/-- C1 counterexample: with the end-to-end payload, the markup handed to
the body container is the empty string, not `<p>text</p>` — the body array
`[["p", ["text"]]]` is rendered as one node whose tag position holds an
array, so it renders empty. -/
theorem forklift_C1_cex :
    bodyArrayToHtml (bodyOf payloadEndToEnd) = "" ∧
    (enhanceWithData payloadEndToEnd domEndToEnd).bodyWrapper = some "" ∧
    ("" : String) ≠ "<p>text</p>" :=
  ⟨rfl, rfl, by decide⟩

/-- C1 as amended: in the end-to-end scenario the body container receives
the empty markup (not `<p>text</p>`), while the score half of the claim
holds: the score container's innermost (deepest-last) child has its text
set to `7.8` and its blur filter cleared to `blur(0px)`. -/
theorem forklift_C1_amended :
    enhanceWithData payloadEndToEnd domEndToEnd =
      Dom.mk (some "")
        (some (Elem.mk "" ""
          (ElemList.cons (Elem.mk "7.8" "blur(0px)" ElemList.nil) ElemList.nil))) ∧
    (innermostElem
      (Elem.mk "" ""
        (ElemList.cons (Elem.mk "7.8" "blur(0px)" ElemList.nil) ElemList.nil))).text = "7.8" ∧
    (innermostElem
      (Elem.mk "" ""
        (ElemList.cons (Elem.mk "7.8" "blur(0px)" ElemList.nil) ElemList.nil))).filter =
      "blur(0px)" :=
  ⟨rfl, rfl, rfl⟩

/-- C2 counterexample: with a well-formed payload carrying score `7.8`, a
page whose body container is absent but whose score box is present is left
entirely unchanged — the score restore is skipped, although performing it
would have changed the score box. -/
theorem forklift_C2_cex :
    enhanceWithData payloadWellFormed
        (Dom.mk none (some (Elem.mk "0.0" "blur(6px)" ElemList.nil))) =
      Dom.mk none (some (Elem.mk "0.0" "blur(6px)" ElemList.nil)) ∧
    setInnermost (jsString (scoreOf payloadWellFormed)) "blur(0px)"
        (Elem.mk "0.0" "blur(6px)" ElemList.nil) ≠
      Elem.mk "0.0" "blur(6px)" ElemList.nil :=
  ⟨rfl, fun h => by
    have h78 : ("7.8" : String) = "0.0" := by
      have := h
      injection this
    exact absurd h78 (by decide)⟩

/-- C2 as amended: the two patch mutations are not independent in the
body-missing direction.  A missing body container skips the whole patch,
score restore included; a missing score box still lets the body
replacement happen. -/
theorem forklift_C2_amended :
    (∀ data dom, dom.bodyWrapper = none → enhanceWithData data dom = dom) ∧
    (∀ data dom w b, dom.bodyWrapper = some w → dom.scoreBox = none →
      bodyOf data = JSVal.arr b →
      enhanceWithData data dom = { dom with bodyWrapper := some (bodyArrayToHtml (JSVal.arr b)) }) := by
  constructor
  · intro data dom hnone
    unfold enhanceWithData
    cases hb : bodyOf data <;> try rfl
    rw [hnone]
  · intro data dom w b hw hsb hb
    unfold enhanceWithData
    rw [hb, hw]
    exact updatePageWithScore_noBox _ _ hsb

/-- C2 amended witness: with the well-formed payload, a page with no body
container is untouched, and a page with a body container but no score box
still gets its body replaced by `<p>text</p>`. -/
theorem forklift_C2_amended_witness :
    enhanceWithData payloadWellFormed (Dom.mk none none) = Dom.mk none none ∧
    enhanceWithData payloadWellFormed (Dom.mk (some "<em>teaser</em>") none) =
      Dom.mk (some "<p>text</p>") none :=
  ⟨forklift_C2_amended.1 payloadWellFormed (Dom.mk none none) rfl,
   forklift_C2_amended.2 payloadWellFormed (Dom.mk (some "<em>teaser</em>") none)
     "<em>teaser</em>" _ rfl rfl rfl⟩

/-- C10: the score writer's no-op guard fires exactly on `null` and
`undefined`; for the falsy number `0` the mutation is still performed,
writing text `0` into the innermost child of the score box and setting its
filter to `blur(0px)`. -/
theorem forklift_C10 :
    (∀ dom, updatePageWithScore JSVal.null dom = dom ∧
      updatePageWithScore JSVal.undefined dom = dom) ∧
    (∀ dom sb, dom.scoreBox = some sb →
      updatePageWithScore (JSVal.num 0) dom =
        { dom with scoreBox := some (setInnermost "0" "blur(0px)" sb) } ∧
      (innermostElem (setInnermost "0" "blur(0px)" sb)).text = "0" ∧
      (innermostElem (setInnermost "0" "blur(0px)" sb)).filter = "blur(0px)") := by
  constructor
  · intro dom
    exact ⟨rfl, rfl⟩
  · intro dom sb hsb
    refine ⟨?_, (innermost_setInnermost "0" "blur(0px)" sb).1,
      (innermost_setInnermost "0" "blur(0px)" sb).2⟩
    unfold updatePageWithScore
    rw [hsb]
    rfl

/-- C10 witness: on a page whose score box shows `0.0` blurred, a score of
`0` rewrites the box to text `0` with `blur(0px)`. -/
theorem forklift_C10_witness :
    updatePageWithScore (JSVal.num 0)
        (Dom.mk none (some (Elem.mk "0.0" "blur(6px)" ElemList.nil))) =
      Dom.mk none (some (setInnermost "0" "blur(0px)" (Elem.mk "0.0" "blur(6px)" ElemList.nil))) ∧
    (innermostElem (setInnermost "0" "blur(0px)" (Elem.mk "0.0" "blur(6px)" ElemList.nil))).text =
      "0" ∧
    (innermostElem
      (setInnermost "0" "blur(0px)" (Elem.mk "0.0" "blur(6px)" ElemList.nil))).filter =
      "blur(0px)" :=
  forklift_C10.2 (Dom.mk none (some (Elem.mk "0.0" "blur(6px)" ElemList.nil)))
    (Elem.mk "0.0" "blur(6px)" ElemList.nil) rfl

theorem observerTrace_disj (batches : List (List (List DNode))) :
    observerTrace batches = [] ∨
      observerTrace batches = [WAction.disconnect, WAction.runCheck] := by
  induction batches with
  | nil => exact Or.inl rfl
  | cons muts rest ih =>
    unfold observerTrace
    by_cases h : batchFires muts = true
    · rw [if_pos h]
      exact Or.inr rfl
    · rw [if_neg h]
      exact ih

/-- C5: over every delivered batch sequence, the watcher's trace is either
empty or exactly `disconnect` followed by `runCheck` — so the subscription
is canceled before the check runs — and on a whole page load (barrier
present at install time or not) the check runs at most once. -/
theorem forklift_C5 :
    ∀ (barAtStart : Bool) (batches : List (List (List DNode))),
      (observerTrace batches = [] ∨
        observerTrace batches = [WAction.disconnect, WAction.runCheck]) ∧
      (pageLoadTrace barAtStart batches).count WAction.runCheck ≤ 1 := by
  intro barAtStart batches
  refine ⟨observerTrace_disj batches, ?_⟩
  unfold pageLoadTrace
  by_cases hb : barAtStart = true
  · rw [if_pos hb]
    decide
  · rw [if_neg hb]
    rcases observerTrace_disj batches with h | h <;> rw [h] <;> decide

/-- C6: the fetcher rejects (a rejected promise, the single `FetchFailed`
condition) exactly when the request failed at the network level, the
status is not success, the trimmed body text is empty or begins with `<`,
or the structured-data parse fails; it resolves otherwise.  The function
consumes the response of the single request it issues — no retry exists. -/
theorem forklift_C6 :
    ∀ (parse : String → Option JSVal) (resp : Option Response),
      (∃ e, fetchReviewJson parse resp = Except.error e) ↔
        (resp = none ∨
          ∃ r, resp = some r ∧
            (r.ok = false ∨ r.bodyText.trim = "" ∨
              (r.bodyText.trim).startsWith "<" = true ∨ parse (r.bodyText.trim) = none)) := by
  intro parse resp
  cases resp with
  | none => simp [fetchReviewJson]
  | some r =>
    by_cases hok : r.ok
    · by_cases he : r.bodyText.trim = ""
      · simp [fetchReviewJson, hok, he]
      · by_cases hs : (r.bodyText.trim).startsWith "<" = true
        · simp [fetchReviewJson, hok, he, hs]
        · cases hp : parse (r.bodyText.trim) with
          | some v => simp [fetchReviewJson, hok, he, hs, hp]
          | none => simp [fetchReviewJson, hok, he, hs, hp]
    · simp [fetchReviewJson, hok]

/-! ## Escaping lemmas -/

theorem replaceCharL_append (c : Char) (r : List Char) :
    ∀ (a b : List Char), replaceCharL c r (a ++ b) = replaceCharL c r a ++ replaceCharL c r b := by
  intro a b
  induction a with
  | nil => rfl
  | cons ch t ih =>
    show (if ch = c then r else [ch]) ++ replaceCharL c r (t ++ b) = _
    rw [ih, ← List.append_assoc]
    rfl

theorem replaceCharL_one (c : Char) (r : List Char) (ch : Char) :
    replaceCharL c r [ch] = if ch = c then r else [ch] := by
  show (if ch = c then r else [ch]) ++ replaceCharL c r [] = _
  rw [show replaceCharL c r [] = [] from rfl, List.append_nil]

theorem escapeTextL_append (a b : List Char) :
    escapeTextL (a ++ b) = escapeTextL a ++ escapeTextL b := by
  unfold escapeTextL
  rw [replaceCharL_append, replaceCharL_append, replaceCharL_append]

theorem escapeAttrL_append (a b : List Char) :
    escapeAttrL (a ++ b) = escapeAttrL a ++ escapeAttrL b := by
  unfold escapeAttrL
  rw [escapeTextL_append, replaceCharL_append]

theorem escapeTextL_single (ch : Char) :
    escapeTextL [ch] =
      (if ch = '&' then "&amp;".data
       else if ch = '<' then "&lt;".data
       else if ch = '>' then "&gt;".data
       else [ch]) := by
  unfold escapeTextL
  rw [replaceCharL_one]
  by_cases h1 : ch = '&'
  · subst h1
    rfl
  simp only [if_neg h1]
  rw [replaceCharL_one]
  by_cases h2 : ch = '<'
  · subst h2
    rfl
  simp only [if_neg h2]
  rw [replaceCharL_one]

theorem escapeAttrL_single (ch : Char) :
    escapeAttrL [ch] =
      (if ch = '&' then "&amp;".data
       else if ch = '<' then "&lt;".data
       else if ch = '>' then "&gt;".data
       else if ch = '"' then "&quot;".data
       else [ch]) := by
  unfold escapeAttrL
  rw [escapeTextL_single]
  by_cases h1 : ch = '&'
  · subst h1
    rfl
  simp only [if_neg h1]
  by_cases h2 : ch = '<'
  · subst h2
    rfl
  simp only [if_neg h2]
  by_cases h3 : ch = '>'
  · subst h3
    rfl
  simp only [if_neg h3]
  rw [replaceCharL_one]

theorem escapeTextL_eq_spec (l : List Char) : escapeTextL l = escapeTextSpecL l := by
  induction l with
  | nil => rfl
  | cons ch t ih =>
    have : (ch :: t) = [ch] ++ t := rfl
    rw [this, escapeTextL_append, escapeTextL_single, ih]
    rfl

theorem escapeAttrL_eq_spec (l : List Char) : escapeAttrL l = escapeAttrSpecL l := by
  induction l with
  | nil => rfl
  | cons ch t ih =>
    have : (ch :: t) = [ch] ++ t := rfl
    rw [this, escapeAttrL_append, escapeAttrL_single, ih]
    rfl

/-- C8: text-position escaping is exactly the simultaneous character map
sending `&`, `<`, `>` to their entities and changing nothing else, and
attribute-position escaping is the same map extended with `"` to `&quot;`;
in particular `<script>&"</script>` escapes as stated in both positions. -/
theorem forklift_C8 :
    (∀ s : String, escapeText s = String.mk (escapeTextSpecL s.data)) ∧
    (∀ s : String, escapeAttr s = String.mk (escapeAttrSpecL s.data)) ∧
    escapeText "<script>&\"</script>" = "&lt;script&gt;&amp;\"&lt;/script&gt;" ∧
    escapeAttr "<script>&\"</script>" = "&lt;script&gt;&amp;&quot;&lt;/script&gt;" :=
  ⟨fun s => congrArg String.mk (escapeTextL_eq_spec s.data),
   fun s => congrArg String.mk (escapeAttrL_eq_spec s.data),
   rfl, rfl⟩

/-! ## Score-parser theorems -/

theorem parseScoreText_range (t : String) (q : ℚ) (h : parseScoreText t = some q) :
    0 ≤ q ∧ q ≤ 10 := by
  unfold parseScoreText at h
  split at h
  · exact Option.noConfusion h
  · split at h
    · cases h
      assumption
    · exact Option.noConfusion h

/-- C3 counterexample: the boundary tokens `10.1` and `-1.0` are not
rejected — on `"10.1"` the bounded-token search matches the embedded `10`
(a word boundary sits between `0` and `.`) and returns `10`, and on
`"-1.0"` it matches the embedded `1.0` and returns `1`. -/
theorem forklift_C3_cex :
    parseScoreText "10.1" = some 10 ∧
    parseScoreText "-1.0" = some 1 ∧
    parseScoreText "10.1" ≠ none ∧
    parseScoreText "-1.0" ≠ none :=
  ⟨by decide, by decide, by decide, by decide⟩

/-- C3 as amended: every value the parser returns lies in `[0, 10]`, and a
text that is exactly one token of the pattern (`10.0`, `10`, or `d.d`)
parses to that token's value; but boundary tokens are not mapped to
`None`: the fallback substring search finds a bounded sub-token, so
`"10.1"` yields `10` and `"-1.0"` yields `1.0`. -/
theorem forklift_C3_amended :
    (∀ t q, parseScoreText t = some q → 0 ≤ q ∧ q ≤ 10) ∧
    parseScoreText "10.0" = some 10 ∧
    parseScoreText "10" = some 10 ∧
    (∀ a b : Fin 10,
      parseScoreText (String.mk [Char.ofNat (48 + a.val), '.', Char.ofNat (48 + b.val)]) =
        some (mkRat (10 * a.val + b.val) 10)) ∧
    parseScoreText "10.1" = some 10 ∧
    parseScoreText "-1.0" = some 1 :=
  ⟨parseScoreText_range, by decide, by decide, by decide, by decide, by decide⟩

/-- C3 amended witness: `"7.8"` parses to `7.8`, which the range property
places inside `[0, 10]`. -/
theorem forklift_C3_amended_witness : 0 ≤ mkRat 78 10 ∧ mkRat 78 10 ≤ 10 :=
  forklift_C3_amended.1 "7.8" (mkRat 78 10) (by decide)

end Forklift
